import Mathlib

/-!
# Verification of the Playback-Projection Session Synchronizer

A shallow embedding of the reconciliation logic of the TestCarProjection app:
the session/connection handlers, the transport-command handlers, the
recently-played history store and the Android Auto browse-tree builder,
together with proofs of the specified properties.

The embedding follows `App.js` (the main app) and the media-only example
variant (the one that builds the media browse tree and handles
`playFromMediaId`).  Engine interactions are modelled as an explicit trace of
calls against a small state model of the `react-native-track-player` engine;
fallible engine calls are driven by an explicit `throws` oracle mirroring the
`try`/`catch` structure of the source.
-/

/-- A catalog track (`mediaItems` entry): `{id, title, artist, mediaUri, artworkUri}`. -/
structure Track where
  id : String
  title : String
  artist : Option String
  mediaUri : String
  artworkUri : Option String
deriving DecidableEq, Repr

/-- The `react-native-track-player` `State` enumeration (the cases the app consults). -/
inductive PlayerState where
  | none
  | ready
  | playing
  | paused
  | stopped
  | buffering
  | connecting
  | error
deriving DecidableEq, Repr

/-- A call made against the playback engine (`TrackPlayer`). -/
inductive EngineCall where
  | setup
  | updateOptions
  | getActiveTrack
  | getPlaybackState
  | getProgress
  | reset
  | add (t : Track)
  | play
  | pause
  | stop
  | seekTo (pos : Nat)
deriving DecidableEq, Repr

/-- One item of the Android Auto media browse tree
(`{id, title, artist, playable, browsable}`). -/
structure BrowseItem where
  id : String
  title : String
  artist : Option String
  playable : Bool
  browsable : Bool
deriving DecidableEq, Repr

/-- An outbound publication to the head-unit surface (CarProjection calls). -/
inductive SurfaceCall where
  | nowPlayingScreen (track : Option Track) (playing : Bool)
  | recentlyPlayedScreen (recent : List Track)
  | mediaBrowseTree (tree : List (String × List BrowseItem))
  | notFoundReport (id : String)
  | popToRoot
deriving DecidableEq, Repr

/-- One observable action of a handler: an engine call, a surface publication,
or the scheduled grace-interval wait. -/
inductive Act where
  | call (c : EngineCall)
  | publish (p : SurfaceCall)
  | wait (ms : Nat)
deriving DecidableEq, Repr

/-- The engine-call projection of a trace. -/
def engineCallsOf (l : List Act) : List EngineCall :=
  l.filterMap fun a =>
    match a with
    | .call c => some c
    | _ => Option.none

/-- State of the playback engine: the active (single-queue) track, the playback
state, and the progress pair. -/
structure Engine where
  activeTrack : Option Track
  state : PlayerState
  position : Nat
  duration : Nat
deriving DecidableEq, Repr

/-- Effect of a successful engine call on the engine state.  `reset` empties the
queue; `add` loads a track (the app always resets or starts from empty before
adding, so a one-slot queue is faithful); `play` starts the loaded track;
reads and `setup`/`updateOptions` leave playback state unchanged. -/
def Engine.exec (e : Engine) : EngineCall → Engine
  | .reset => { activeTrack := Option.none, state := .none, position := 0, duration := 0 }
  | .add t => { e with activeTrack := some t }
  | .play => if e.activeTrack.isSome then { e with state := .playing } else e
  | .pause => { e with state := .paused }
  | .stop => { e with state := .stopped }
  | .seekTo p => { e with position := p }
  | _ => e

/-- Failure oracle: `throws c = true` means the engine call `c` raises.  The
all-success oracle models the failure-free runs of the examples. -/
def noThrow : EngineCall → Bool := fun _ => false

/-- App-side reconciler state: the React state and refs of `App.js` that the
handlers read and write, plus the last-published now-playing surface. -/
structure AppState where
  currentTrack : Option Track
  isPlaying : Bool
  recentlyPlayed : List Track
  persisted : List Track
  isConnected : Bool
  isPlayerReady : Bool
  pendingAudioRestart : Option (Track × Nat)
  nowPlayingSurface : Option Track × Bool
deriving DecidableEq, Repr

/-- Result of running one handler: the new app state, the new engine state and
the ordered trace of observable actions. -/
structure Run where
  app : AppState
  eng : Engine
  trace : List Act
deriving DecidableEq, Repr

/-! ## History store -/

/-- Constant `MAX_RECENT_ITEMS` of `App.js`. -/
def MAX_RECENT_ITEMS : Nat := 10

/-- The pure core of `record`: remove any entry with the same id, prepend, then
truncate to `n` (`[track, ...prev.filter(item => item.id !== track.id)].slice(0, n)`). -/
def recordTrack (n : Nat) (track : Track) (prev : List Track) : List Track :=
  (track :: prev.filter fun item => item.id ≠ track.id).take n

/-- Function `addToRecentlyPlayed` of `App.js` (capacity 10). -/
def addToRecentlyPlayed (track : Track) (prev : List Track) : List Track :=
  recordTrack MAX_RECENT_ITEMS track prev

/-- The history list after a sequence of `record` calls starting empty. -/
def histAfter (ts : List Track) : List Track :=
  ts.foldl (fun acc t => addToRecentlyPlayed t acc) []

theorem recordTrack_length_le (n : Nat) (t : Track) (l : List Track) :
    (recordTrack n t l).length ≤ n := by
  simp only [recordTrack, List.length_take]
  exact Nat.min_le_left _ _

theorem recordTrack_nodup (n : Nat) (t : Track) (l : List Track)
    (h : (l.map Track.id).Nodup) : ((recordTrack n t l).map Track.id).Nodup := by
  have hsub : List.Sublist (recordTrack n t l)
      (t :: l.filter fun item => item.id ≠ t.id) := List.take_sublist _ _
  have hcons : ((t :: l.filter fun item => item.id ≠ t.id).map Track.id).Nodup := by
    refine List.nodup_cons.mpr ⟨?_, ?_⟩
    · intro hmem
      rcases List.mem_map.mp hmem with ⟨u, hu, hid⟩
      have hne := (List.mem_filter.mp hu).2
      simp only [decide_eq_true_eq] at hne
      exact hne hid
    · exact List.Nodup.sublist ((List.filter_sublist l).map Track.id) h
  exact List.Nodup.sublist (hsub.map Track.id) hcons

theorem histAfter_length_le (ts : List Track) :
    (histAfter ts).length ≤ MAX_RECENT_ITEMS := by
  induction ts using List.reverseRecOn with
  | nil => simp [histAfter, MAX_RECENT_ITEMS]
  | append_singleton ts t _ =>
    simp only [histAfter, List.foldl_append, List.foldl_cons, List.foldl_nil]
    exact recordTrack_length_le _ _ _

theorem histAfter_nodup (ts : List Track) :
    ((histAfter ts).map Track.id).Nodup := by
  induction ts using List.reverseRecOn with
  | nil => simp [histAfter]
  | append_singleton ts t ih =>
    simp only [histAfter, List.foldl_append, List.foldl_cons, List.foldl_nil]
    exact recordTrack_nodup _ _ _ ih

/-! ## Playback Engine Adapter and transport handlers (`App.js`) -/

/-- Function `setupPlayer` (`App.js`): try `setupPlayer` + `updateOptions`; on a raise,
probe `getPlaybackState` and treat an already-initialized player as success.
Returns the ready flag and the call trace. -/
def setupPlayer (throws : EngineCall → Bool) : Bool × List Act :=
  if throws .setup then
    (if throws .getPlaybackState then false else true,
      [.call .setup, .call .getPlaybackState])
  else if throws .updateOptions then
    (if throws .getPlaybackState then false else true,
      [.call .setup, .call .updateOptions, .call .getPlaybackState])
  else
    (true, [.call .setup, .call .updateOptions])

/-- Function `playTrack(track, fromAndroidAuto)` (`App.js`): late `setupPlayer` if the
ready flag is unset, then `try { reset; add; play; getPlaybackState; set state;
record history; publish screens; popToRoot if from Android Auto } catch { log }`.
A raise anywhere in the `try` aborts the rest (the `catch` only logs). -/
def playTrack (throws : EngineCall → Bool) (track : Track) (fromAndroidAuto : Bool)
    (s : AppState) (e : Engine) : Run :=
  let setupActs : List Act := if s.isPlayerReady then [] else (setupPlayer throws).2
  if throws .reset then
    ⟨s, e, setupActs ++ [.call .reset]⟩
  else
    let e1 := e.exec .reset
    if throws (.add track) then
      ⟨s, e1, setupActs ++ [.call .reset, .call (.add track)]⟩
    else
      let e2 := e1.exec (.add track)
      if throws .play then
        ⟨s, e2, setupActs ++ [.call .reset, .call (.add track), .call .play]⟩
      else
        let e3 := e2.exec .play
        if throws .getPlaybackState then
          ⟨s, e3, setupActs ++
            [.call .reset, .call (.add track), .call .play, .call .getPlaybackState]⟩
        else
          let newRecent := addToRecentlyPlayed track s.recentlyPlayed
          ⟨{ s with
              currentTrack := some track,
              recentlyPlayed := newRecent,
              persisted := newRecent,
              nowPlayingSurface := (some track, true) },
            e3,
            setupActs ++
              [.call .reset, .call (.add track), .call .play, .call .getPlaybackState,
                .publish (.nowPlayingScreen (some track) true),
                .publish (.recentlyPlayedScreen newRecent)] ++
              (if fromAndroidAuto then [.publish .popToRoot] else [])⟩

/-- Function `pauseTrack` (`App.js`): `try { pause; publish now-playing(current, false) }`. -/
def pauseTrack (throws : EngineCall → Bool) (s : AppState) (e : Engine) : Run :=
  if throws .pause then
    ⟨s, e, [.call .pause]⟩
  else
    let e1 := e.exec .pause
    match s.currentTrack with
    | some t =>
      ⟨{ s with nowPlayingSurface := (some t, false) }, e1,
        [.call .pause, .publish (.nowPlayingScreen (some t) false)]⟩
    | Option.none => ⟨s, e1, [.call .pause]⟩

/-- Function `resumeTrack` (`App.js`): `try { play; publish now-playing(current, true) }`. -/
def resumeTrack (throws : EngineCall → Bool) (s : AppState) (e : Engine) : Run :=
  if throws .play then
    ⟨s, e, [.call .play]⟩
  else
    let e1 := e.exec .play
    match s.currentTrack with
    | some t =>
      ⟨{ s with nowPlayingSurface := (some t, true) }, e1,
        [.call .play, .publish (.nowPlayingScreen (some t) true)]⟩
    | Option.none => ⟨s, e1, [.call .play]⟩

/-- The `catch` path of the session-started handler: publish the blank
now-playing surface and the recently-played screen. -/
def sessionStartedCatch (s : AppState) (e : Engine) (acts : List Act) : Run :=
  ⟨{ s with nowPlayingSurface := (Option.none, false) }, e,
    acts ++ [.publish (.nowPlayingScreen Option.none false),
      .publish (.recentlyPlayedScreen s.recentlyPlayed)]⟩

/-- The `addSessionStartedListener` handler (`App.js` connect event):
set the connected flag, read the active track and playback state, then
  * active track resolved in the catalog and playing → routing restart:
    read progress, pause, wait 2 s, seek back if the position is positive, play;
  * active track resolved and not playing → resume unconditionally;
  * no active track and non-empty history → `playTrack(first, true)`;
  * otherwise → publish the blank surfaces.
A raise inside the `try` falls to the catch path (blank surfaces). -/
def sessionStartedHandler (throws : EngineCall → Bool) (catalog : List Track)
    (s0 : AppState) (e : Engine) : Run :=
  let s := { s0 with isConnected := true }
  if throws .getActiveTrack then
    sessionStartedCatch s e [.call .getActiveTrack]
  else if throws .getPlaybackState then
    sessionStartedCatch s e [.call .getActiveTrack, .call .getPlaybackState]
  else
    let readActs : List Act := [.call .getActiveTrack, .call .getPlaybackState]
    match e.activeTrack with
    | some t =>
      match catalog.find? fun item => item.id == t.id with
      | some mediaTrack =>
        let s1 := { s with currentTrack := some mediaTrack }
        if e.state = PlayerState.playing then
          -- restart playback to route audio to the car
          if throws .getProgress then
            sessionStartedCatch s1 e (readActs ++ [.call .getProgress])
          else if throws .pause then
            sessionStartedCatch s1 e (readActs ++ [.call .getProgress, .call .pause])
          else
            let pos := e.position
            let e1 := e.exec .pause
            if 0 < pos then
              if throws (.seekTo pos) then
                sessionStartedCatch s1 e1
                  (readActs ++ [.call .getProgress, .call .pause, .wait 2000, .call (.seekTo pos)])
              else
                let e2 := e1.exec (.seekTo pos)
                if throws .play then
                  sessionStartedCatch s1 e2
                    (readActs ++ [.call .getProgress, .call .pause, .wait 2000,
                      .call (.seekTo pos), .call .play])
                else
                  ⟨{ s1 with isPlaying := true, nowPlayingSurface := (some mediaTrack, true) },
                    e2.exec .play,
                    readActs ++ [.call .getProgress, .call .pause, .wait 2000,
                      .call (.seekTo pos), .call .play,
                      .publish (.nowPlayingScreen (some mediaTrack) true),
                      .publish (.recentlyPlayedScreen s1.recentlyPlayed)]⟩
            else
              if throws .play then
                sessionStartedCatch s1 e1
                  (readActs ++ [.call .getProgress, .call .pause, .wait 2000, .call .play])
              else
                ⟨{ s1 with isPlaying := true, nowPlayingSurface := (some mediaTrack, true) },
                  e1.exec .play,
                  readActs ++ [.call .getProgress, .call .pause, .wait 2000, .call .play,
                    .publish (.nowPlayingScreen (some mediaTrack) true),
                    .publish (.recentlyPlayedScreen s1.recentlyPlayed)]⟩
        else
          -- had a track but paused: resume so audio plays in the car
          if throws .play then
            sessionStartedCatch s1 e (readActs ++ [.call .play])
          else
            ⟨{ s1 with isPlaying := true, nowPlayingSurface := (some mediaTrack, true) },
              e.exec .play,
              readActs ++ [.call .play,
                .publish (.nowPlayingScreen (some mediaTrack) true),
                .publish (.recentlyPlayedScreen s1.recentlyPlayed)]⟩
      | Option.none =>
        -- active track not in the catalog: fall through to the blank branch
        ⟨{ s with nowPlayingSurface := (Option.none, false) }, e,
          readActs ++ [.publish (.nowPlayingScreen Option.none false),
            .publish (.recentlyPlayedScreen s.recentlyPlayed)]⟩
    | Option.none =>
      match s.recentlyPlayed with
      | first :: _ =>
        let r := playTrack throws first true s e
        ⟨r.app, r.eng, readActs ++ r.trace⟩
      | [] =>
        ⟨{ s with nowPlayingSurface := (Option.none, false) }, e,
          readActs ++ [.publish (.nowPlayingScreen Option.none false),
            .publish (.recentlyPlayedScreen s.recentlyPlayed)]⟩

/-- The `addSessionEndedListener` handler (`App.js` disconnect event): clear the
connected flag and the pending-restart ref; nothing else happens. -/
def sessionEndedHandler (s : AppState) (e : Engine) : Run :=
  ⟨{ s with isConnected := false, pendingAudioRestart := Option.none }, e, []⟩

/-- The `addMediaPlayListener` handler (`App.js`): resume when a current track
is set and not playing; start the first recently-played entry when no current
track and the history is non-empty; otherwise do nothing. -/
def mediaPlayHandler (throws : EngineCall → Bool) (s : AppState) (e : Engine) : Run :=
  match s.currentTrack with
  | some _ =>
    if s.isPlaying then ⟨s, e, []⟩ else resumeTrack throws s e
  | Option.none =>
    match s.recentlyPlayed with
    | first :: _ => playTrack throws first true s e
    | [] => ⟨s, e, []⟩

/-- The `addMediaPauseListener` handler (`App.js`): calls `pauseTrack`
unconditionally. -/
def mediaPauseHandler (throws : EngineCall → Bool) (s : AppState) (e : Engine) : Run :=
  pauseTrack throws s e

/-! ## Media-only variant: browse tree and play-from-id -/

namespace MediaOnly

/-- Constant `ROOT_ID` of the media-only example. -/
def ROOT_ID : String := "__ROOT__"

/-- Constant `RECENTLY_PLAYED_ID` of the media-only example. -/
def RECENTLY_PLAYED_ID : String := "recently_played"

/-- Constant `MAX_RECENT` of the media-only example. -/
def MAX_RECENT : Nat := 3

/-- Mapping of a catalog or history track to a playable browse leaf. -/
def trackBrowseItem (item : Track) : BrowseItem :=
  { id := item.id, title := item.title, artist := item.artist,
    playable := true, browsable := false }

/-- The browsable "Recently Played" folder node placed at the root. -/
def recentlyPlayedFolder : BrowseItem :=
  { id := RECENTLY_PLAYED_ID, title := "Recently Played", artist := Option.none,
    playable := false, browsable := true }

/-- The root item list: the "Recently Played" folder followed by every catalog
track as a playable leaf. -/
def rootItems (catalog : List Track) : List BrowseItem :=
  recentlyPlayedFolder :: catalog.map trackBrowseItem

/-- The browse tree published via `setMediaBrowseTree`: the root entry and the
children of the "Recently Played" folder. -/
def browseTree (catalog recentlyPlayed : List Track) : List (String × List BrowseItem) :=
  [(ROOT_ID, rootItems catalog),
   (RECENTLY_PLAYED_ID, recentlyPlayed.map trackBrowseItem)]

/-- App state of the media-only variant: current track, playback state cache
and the recently-played list (capacity 3, in memory only). -/
structure MState where
  currentTrack : Option Track
  playbackState : PlayerState
  recentlyPlayed : List Track
deriving DecidableEq, Repr

/-- Result of a media-only handler run. -/
structure MRun where
  app : MState
  eng : Engine
  trace : List Act
deriving DecidableEq, Repr

/-- Function `playTrack(item)` of the media-only example: `try { add; play; set current;
record history } catch { warn }`; a successful run additionally re-publishes the
browse tree (the `useEffect` keyed on `recentlyPlayed`). -/
def playTrack (throws : EngineCall → Bool) (catalog : List Track) (item : Track)
    (s : MState) (e : Engine) : MRun :=
  if throws (.add item) then
    ⟨s, e, [.call (.add item)]⟩
  else
    let e1 := e.exec (.add item)
    if throws .play then
      ⟨s, e1, [.call (.add item), .call .play]⟩
    else
      let e2 := e1.exec .play
      let newRecent := recordTrack MAX_RECENT item s.recentlyPlayed
      ⟨{ s with currentTrack := some item, recentlyPlayed := newRecent }, e2,
        [.call (.add item), .call .play,
          .publish (.mediaBrowseTree (browseTree catalog newRecent))]⟩

/-- The `addMediaPlayFromIdListener` handler: resolve `event.mediaId` against
the catalog; play the item when found, otherwise do nothing at all. -/
def onMediaPlayFromId (throws : EngineCall → Bool) (catalog : List Track)
    (mediaId : String) (s : MState) (e : Engine) : MRun :=
  match catalog.find? fun m => m.id == mediaId with
  | some item => playTrack throws catalog item s e
  | Option.none => ⟨s, e, []⟩

end MediaOnly

/-! ## Interleaving semantics for the routing-restart sequence

The handlers above are `async` functions: every `await` suspends them and lets
other arriving events run their handlers.  The grace-interval wait
(`await new Promise(r => setTimeout(r, 2000))`) in the routing-restart branch
is such a suspension point: a transport command arriving during those two
seconds runs to completion before the restart sequence resumes.  The two
halves of the restart branch around that suspension point are modelled
explicitly and tied back to `sessionStartedHandler` below. -/

/-- Intermediate state of the session-started handler suspended at the start of
the grace wait, with the saved pre-pause position. -/
structure MidRestart where
  app : AppState
  eng : Engine
  trace : List Act
  savedPos : Nat
deriving DecidableEq, Repr

/-- The routing-restart branch up to the start of the 2-second wait (assuming
the active track resolved to `mediaTrack` and the engine reported playing):
read the active track, state and progress, then pause. -/
def restartFirstHalf (mediaTrack : Track) (s0 : AppState) (e : Engine) : MidRestart :=
  ⟨{ s0 with isConnected := true, currentTrack := some mediaTrack },
    e.exec .pause,
    [.call .getActiveTrack, .call .getPlaybackState, .call .getProgress, .call .pause],
    e.position⟩

/-- The routing-restart branch after the wait resolves: seek back when the
saved position is positive, play, mark playing and publish the screens. -/
def restartSecondHalf (mediaTrack : Track) (savedPos : Nat)
    (s : AppState) (e : Engine) : Run :=
  let e1 := if 0 < savedPos then e.exec (.seekTo savedPos) else e
  ⟨{ s with isPlaying := true, nowPlayingSurface := (some mediaTrack, true) },
    e1.exec .play,
    (if 0 < savedPos then [.call (.seekTo savedPos)] else []) ++
      [.call .play, .publish (.nowPlayingScreen (some mediaTrack) true),
        .publish (.recentlyPlayedScreen s.recentlyPlayed)]⟩

/-- The actual execution when a pause transport command arrives during the
grace wait: the first half runs, the pause handler runs to completion while the
restart is suspended, then the second half resumes on the state the command
left behind. -/
def restartWithPauseDuringWait (mediaTrack : Track) (s0 : AppState) (e : Engine) : Run :=
  let m := restartFirstHalf mediaTrack s0 e
  let p := mediaPauseHandler noThrow m.app m.eng
  let r := restartSecondHalf mediaTrack m.savedPos p.app p.eng
  ⟨r.app, r.eng, m.trace ++ [.wait 2000] ++ p.trace ++ r.trace⟩

/-- The queued execution the spec describes: the restart sequence runs to
completion and only then is the pause command applied. -/
def restartThenPause (catalog : List Track) (s0 : AppState) (e : Engine) : Run :=
  let r := sessionStartedHandler noThrow catalog s0 e
  let p := mediaPauseHandler noThrow r.app r.eng
  ⟨p.app, p.eng, r.trace ++ p.trace⟩

/-! ## Concrete catalogs and states (the example apps' `mediaItems`) -/

/-- First track of the car-app-plus-media example catalog. -/
def demoTrackA : Track :=
  { id := "track-1", title := "Car App + Media Track 1", artist := some "Example",
    mediaUri := "http://commondatastorage.googleapis.com/gtv-videos-bucket/sample/BigBuckBunny.mp4",
    artworkUri := Option.none }

/-- Second track of the car-app-plus-media example catalog. -/
def demoTrackB : Track :=
  { id := "track-2", title := "Car App + Media Track 2", artist := some "Example",
    mediaUri := "http://commondatastorage.googleapis.com/gtv-videos-bucket/sample/ElephantsDream.mp4",
    artworkUri := Option.none }

/-- The two-track demo catalog. -/
def demoCatalog : List Track := [demoTrackA, demoTrackB]

/-- First track of the media-only example catalog. -/
def mediaOnlyTrack1 : Track :=
  { id := "media-only-1", title := "Media Only Track 1", artist := some "Example",
    mediaUri := "http://commondatastorage.googleapis.com/gtv-videos-bucket/sample/BigBuckBunny.mp4",
    artworkUri := Option.none }

/-- Second track of the media-only example catalog. -/
def mediaOnlyTrack2 : Track :=
  { id := "media-only-2", title := "Media Only Track 2", artist := some "Example",
    mediaUri := "http://commondatastorage.googleapis.com/gtv-videos-bucket/sample/ElephantsDream.mp4",
    artworkUri := Option.none }

/-- The media-only example catalog. -/
def mediaOnlyCatalog : List Track := [mediaOnlyTrack1, mediaOnlyTrack2]

/-- A state in which track A is current but paused, and the head unit is connected. -/
def demoPausedState : AppState :=
  { currentTrack := some demoTrackA, isPlaying := false,
    recentlyPlayed := [demoTrackA], persisted := [demoTrackA],
    isConnected := true, isPlayerReady := true,
    pendingAudioRestart := Option.none,
    nowPlayingSurface := (some demoTrackA, false) }

/-- The engine paused on track A at 37 s. -/
def demoPausedEngine : Engine :=
  { activeTrack := some demoTrackA, state := .paused, position := 37, duration := 120 }

/-- The engine playing track A at 37 s. -/
def demoPlayingEngine : Engine :=
  { activeTrack := some demoTrackA, state := .playing, position := 37, duration := 120 }

/-- A media-only demo state: track 1 current and once played. -/
def mediaOnlyDemoState : MediaOnly.MState :=
  { currentTrack := some mediaOnlyTrack1, playbackState := .paused,
    recentlyPlayed := [mediaOnlyTrack1] }

/-- A media-only demo engine state. -/
def mediaOnlyDemoEngine : Engine :=
  { activeTrack := some mediaOnlyTrack1, state := .paused, position := 5, duration := 120 }

/-! ## History lemmas for the recency property -/

theorem length_filter_ne_of_mem (t : Track) (l : List Track)
    (hn : (l.map Track.id).Nodup) (hm : t.id ∈ l.map Track.id) :
    (l.filter fun item => item.id ≠ t.id).length + 1 = l.length := by
  induction l with
  | nil => simp at hm
  | cons u l ih =>
    rw [List.map_cons, List.nodup_cons] at hn
    rcases hn with ⟨hu, hn⟩
    rw [List.map_cons, List.mem_cons] at hm
    by_cases hid : u.id = t.id
    · have hdrop : ((u :: l).filter fun item => item.id ≠ t.id) =
          l.filter fun item => item.id ≠ t.id := by
        simp [List.filter_cons, hid]
      have hkeep : (l.filter fun item => item.id ≠ t.id) = l := by
        apply List.filter_eq_self.mpr
        intro a ha
        simp only [decide_eq_true_eq]
        intro hcontra
        apply hu
        rw [hid, ← hcontra]
        exact List.mem_map_of_mem Track.id ha
      rw [hdrop, hkeep, List.length_cons]
    · have hm2 : t.id ∈ l.map Track.id := by
        rcases hm with hm1 | hm2
        · exact absurd hm1.symm hid
        · exact hm2
      have hkeep : ((u :: l).filter fun item => item.id ≠ t.id) =
          u :: l.filter fun item => item.id ≠ t.id := by
        simp [List.filter_cons, hid]
      rw [hkeep, List.length_cons, List.length_cons]
      have := ih hn hm2
      omega

theorem recordTrack_of_mem (n : Nat) (t : Track) (l : List Track)
    (hn : (l.map Track.id).Nodup) (hm : t.id ∈ l.map Track.id) (hle : l.length ≤ n) :
    recordTrack n t l = t :: l.filter fun item => item.id ≠ t.id := by
  have hlen := length_filter_ne_of_mem t l hn hm
  apply List.take_of_length_le
  simp only [List.length_cons]
  omega

/-! ## Claim theorems -/

/-- C3: handling a disconnected event never issues a stop (or any other engine
call): the engine is untouched, the trace is empty, and the app state changes
only by clearing the connected flag and the in-flight restart ref. -/
theorem c3_disconnect_preserves_audio (s : AppState) (e : Engine) :
    engineCallsOf (sessionEndedHandler s e).trace = [] ∧
    (sessionEndedHandler s e).eng = e ∧
    (sessionEndedHandler s e).app =
      { s with isConnected := false, pendingAudioRestart := Option.none } :=
  ⟨rfl, rfl, rfl⟩

/-- C6: after any sequence of `record` calls the history never exceeds
`MAX_RECENT_ITEMS`, its ids are pairwise distinct, and re-recording a present id
moves it to the front without changing the length. -/
theorem c6_history_bound_and_recency (ts : List Track) :
    (histAfter ts).length ≤ MAX_RECENT_ITEMS ∧
    ((histAfter ts).map Track.id).Nodup ∧
    ∀ t : Track, t.id ∈ (histAfter ts).map Track.id →
      (addToRecentlyPlayed t (histAfter ts)).length = (histAfter ts).length ∧
      (addToRecentlyPlayed t (histAfter ts)).head? = some t := by
  refine ⟨histAfter_length_le ts, histAfter_nodup ts, ?_⟩
  intro t hm
  have heq := recordTrack_of_mem MAX_RECENT_ITEMS t (histAfter ts)
    (histAfter_nodup ts) hm (histAfter_length_le ts)
  have hlen := length_filter_ne_of_mem t (histAfter ts) (histAfter_nodup ts) hm
  constructor
  · rw [addToRecentlyPlayed, heq, List.length_cons]
    omega
  · rw [addToRecentlyPlayed, heq]
    rfl

/-- Witness for C6 at a concrete record sequence: after recording B then A,
re-recording A keeps the length and moves A to the front. -/
theorem c6_history_bound_and_recency_witness :
    demoTrackA.id ∈ (histAfter [demoTrackB, demoTrackA]).map Track.id ∧
    (addToRecentlyPlayed demoTrackA (histAfter [demoTrackB, demoTrackA])).length =
      (histAfter [demoTrackB, demoTrackA]).length ∧
    (addToRecentlyPlayed demoTrackA (histAfter [demoTrackB, demoTrackA])).head? =
      some demoTrackA := by
  have hmem : demoTrackA.id ∈ (histAfter [demoTrackB, demoTrackA]).map Track.id := by
    decide
  have h := (c6_history_bound_and_recency [demoTrackB, demoTrackA]).2.2 demoTrackA hmem
  exact ⟨hmem, h.1, h.2⟩

/-- C5 counterexample: with an empty history the "Recently Played" folder node
is still present in the root of the built browse tree (the claim says it is
omitted). -/
theorem c5_counterexample :
    MediaOnly.recentlyPlayedFolder ∈ MediaOnly.rootItems mediaOnlyCatalog ∧
    MediaOnly.browseTree mediaOnlyCatalog [] =
      [(MediaOnly.ROOT_ID, MediaOnly.rootItems mediaOnlyCatalog),
       (MediaOnly.RECENTLY_PLAYED_ID, [])] := by
  constructor
  · exact List.mem_cons_self _ _
  · rfl

/-- C5 amended: for every catalog and history the root holds the
"Recently Played" folder first (its only browsable entry, present even when the
history is empty) followed by all catalog tracks as playable leaves in catalog
order; the folder's children are the history entries, most recent first. -/
theorem c5_browse_tree_shape (catalog history : List Track) :
    MediaOnly.browseTree catalog history =
      [(MediaOnly.ROOT_ID, MediaOnly.recentlyPlayedFolder :: catalog.map MediaOnly.trackBrowseItem),
       (MediaOnly.RECENTLY_PLAYED_ID, history.map MediaOnly.trackBrowseItem)] ∧
    ((MediaOnly.rootItems catalog).filter fun b => b.browsable) =
      [MediaOnly.recentlyPlayedFolder] ∧
    ((MediaOnly.rootItems catalog).tail.all fun b => b.playable && !b.browsable) = true ∧
    (MediaOnly.rootItems catalog).tail.map BrowseItem.id = catalog.map Track.id := by
  refine ⟨rfl, ?_, ?_, ?_⟩
  · have hnil : (catalog.map MediaOnly.trackBrowseItem).filter (fun b => b.browsable) = [] := by
      induction catalog with
      | nil => rfl
      | cons hd tl ih => simp [List.filter_cons, MediaOnly.trackBrowseItem, ih]
    simp [MediaOnly.rootItems, List.filter_cons, MediaOnly.recentlyPlayedFolder, hnil]
  · show ((catalog.map MediaOnly.trackBrowseItem).all fun b => b.playable && !b.browsable) = true
    simp [MediaOnly.trackBrowseItem, List.all_eq_true]
  · show (catalog.map MediaOnly.trackBrowseItem).map BrowseItem.id = catalog.map Track.id
    simp only [List.map_map]
    rfl

/-- C7 counterexample: a `playFromMediaId` with an unknown id produces no
engine call and no state change, but also no not-found report to the caller
(the handler is silent, contradicting the claimed report). -/
theorem c7_counterexample :
    (MediaOnly.onMediaPlayFromId noThrow mediaOnlyCatalog "Z"
        mediaOnlyDemoState mediaOnlyDemoEngine).trace = [] ∧
    Act.publish (SurfaceCall.notFoundReport "Z") ∉
      (MediaOnly.onMediaPlayFromId noThrow mediaOnlyCatalog "Z"
        mediaOnlyDemoState mediaOnlyDemoEngine).trace ∧
    (MediaOnly.onMediaPlayFromId noThrow mediaOnlyCatalog "Z"
        mediaOnlyDemoState mediaOnlyDemoEngine).app = mediaOnlyDemoState ∧
    (MediaOnly.onMediaPlayFromId noThrow mediaOnlyCatalog "Z"
        mediaOnlyDemoState mediaOnlyDemoEngine).eng = mediaOnlyDemoEngine := by
  refine ⟨rfl, ?_, rfl, rfl⟩
  intro h
  have h0 : (MediaOnly.onMediaPlayFromId noThrow mediaOnlyCatalog "Z"
      mediaOnlyDemoState mediaOnlyDemoEngine).trace = [] := rfl
  rw [h0] at h
  exact List.not_mem_nil _ h

/-- C7 amended: an unknown id is silently ignored (no engine call, no report,
no state change); a resolved id leads to `add` + `play` and, on success, the
history record and the browse-tree republication. -/
theorem c7_play_by_id (catalog : List Track) (mediaId : String)
    (s : MediaOnly.MState) (e : Engine) :
    ((catalog.find? fun m => m.id == mediaId) = Option.none →
      MediaOnly.onMediaPlayFromId noThrow catalog mediaId s e = ⟨s, e, []⟩) ∧
    (∀ item, (catalog.find? fun m => m.id == mediaId) = some item →
      (MediaOnly.onMediaPlayFromId noThrow catalog mediaId s e).trace =
        [.call (.add item), .call .play,
          .publish (.mediaBrowseTree (MediaOnly.browseTree catalog
            (recordTrack MediaOnly.MAX_RECENT item s.recentlyPlayed)))] ∧
      (MediaOnly.onMediaPlayFromId noThrow catalog mediaId s e).app.recentlyPlayed =
        recordTrack MediaOnly.MAX_RECENT item s.recentlyPlayed ∧
      (MediaOnly.onMediaPlayFromId noThrow catalog mediaId s e).app.currentTrack =
        some item) := by
  constructor
  · intro h
    simp [MediaOnly.onMediaPlayFromId, h]
  · intro item h
    simp [MediaOnly.onMediaPlayFromId, h, MediaOnly.playTrack, noThrow]

/-- Witness for C7 at concrete inputs: id "Z" is unknown and silently ignored;
id "media-only-1" resolves and becomes the current track. -/
theorem c7_play_by_id_witness :
    MediaOnly.onMediaPlayFromId noThrow mediaOnlyCatalog "Z"
        mediaOnlyDemoState mediaOnlyDemoEngine =
      ⟨mediaOnlyDemoState, mediaOnlyDemoEngine, []⟩ ∧
    (MediaOnly.onMediaPlayFromId noThrow mediaOnlyCatalog "media-only-1"
        mediaOnlyDemoState mediaOnlyDemoEngine).app.currentTrack = some mediaOnlyTrack1 := by
  constructor
  · exact (c7_play_by_id mediaOnlyCatalog "Z" mediaOnlyDemoState mediaOnlyDemoEngine).1
      (by decide)
  · exact ((c7_play_by_id mediaOnlyCatalog "media-only-1" mediaOnlyDemoState
      mediaOnlyDemoEngine).2 mediaOnlyTrack1 (by decide)).2.2

/-- C8 counterexample: a pause command arriving while nothing is playing still
issues an engine `pause` call (not merely a state read). -/
theorem c8_counterexample :
    demoPausedState.isPlaying = false ∧
    demoPausedEngine.state ≠ PlayerState.playing ∧
    engineCallsOf (mediaPauseHandler noThrow demoPausedState demoPausedEngine).trace =
      [EngineCall.pause] := by
  refine ⟨rfl, by decide, rfl⟩

/-- C8 amended: the pause command handler issues exactly one engine call, an
unconditional `pause` with no preceding state read; when the engine is already
paused its state is unchanged by it. -/
theorem c8_pause_unconditional (s : AppState) (e : Engine) :
    engineCallsOf (mediaPauseHandler noThrow s e).trace = [EngineCall.pause] ∧
    (mediaPauseHandler noThrow s e).eng.state = PlayerState.paused ∧
    (e.state = PlayerState.paused → (mediaPauseHandler noThrow s e).eng = e) := by
  refine ⟨?_, ?_, ?_⟩
  · cases h : s.currentTrack with
    | none => simp [mediaPauseHandler, pauseTrack, noThrow, h, engineCallsOf]
    | some t => simp [mediaPauseHandler, pauseTrack, noThrow, h, engineCallsOf]
  · cases h : s.currentTrack with
    | none => simp [mediaPauseHandler, pauseTrack, noThrow, h, Engine.exec]
    | some t => simp [mediaPauseHandler, pauseTrack, noThrow, h, Engine.exec]
  · intro hp
    have : e.exec .pause = e := by
      cases e
      simp only [Engine.exec]
      simp_all
    cases h : s.currentTrack with
    | none => simp [mediaPauseHandler, pauseTrack, noThrow, h, this]
    | some t => simp [mediaPauseHandler, pauseTrack, noThrow, h, this]

/-- Witness for C8 at the paused demo state: one `pause` call, engine unchanged. -/
theorem c8_pause_unconditional_witness :
    engineCallsOf (mediaPauseHandler noThrow demoPausedState demoPausedEngine).trace =
      [EngineCall.pause] ∧
    (mediaPauseHandler noThrow demoPausedState demoPausedEngine).eng = demoPausedEngine :=
  ⟨(c8_pause_unconditional demoPausedState demoPausedEngine).1,
   (c8_pause_unconditional demoPausedState demoPausedEngine).2.2 rfl⟩

/-- A disconnected start state with only track B in the history. -/
def demoStartState : AppState :=
  { currentTrack := Option.none, isPlaying := false,
    recentlyPlayed := [demoTrackB], persisted := [demoTrackB],
    isConnected := false, isPlayerReady := true,
    pendingAudioRestart := Option.none,
    nowPlayingSurface := (Option.none, false) }

/-- An engine with nothing loaded. -/
def demoEmptyEngine : Engine :=
  { activeTrack := Option.none, state := .none, position := 0, duration := 0 }

/-- Oracle under which exactly the `play` call raises. -/
def failPlay : EngineCall → Bool := fun c =>
  match c with
  | .play => true
  | _ => false

/-- C1: a connect event with an active catalog track and a playing engine runs
the routing-restart sequence in order - read position, pause, wait 2 s, seek
back when the position is positive (skipped otherwise), resume - and ends with
the playing status published for the same track, the engine playing at the
saved position. -/
theorem c1_routing_restart_sequence (catalog : List Track) (s : AppState) (e : Engine)
    (t mediaTrack : Track)
    (hactive : e.activeTrack = some t)
    (hfind : (catalog.find? fun item => item.id == t.id) = some mediaTrack)
    (hplaying : e.state = PlayerState.playing) :
    (sessionStartedHandler noThrow catalog s e).trace =
      [.call .getActiveTrack, .call .getPlaybackState, .call .getProgress, .call .pause,
        .wait 2000] ++
      (if 0 < e.position then [.call (.seekTo e.position)] else []) ++
      [.call .play, .publish (.nowPlayingScreen (some mediaTrack) true),
        .publish (.recentlyPlayedScreen s.recentlyPlayed)] ∧
    (sessionStartedHandler noThrow catalog s e).app.nowPlayingSurface =
      (some mediaTrack, true) ∧
    (sessionStartedHandler noThrow catalog s e).app.currentTrack = some mediaTrack ∧
    (sessionStartedHandler noThrow catalog s e).app.isPlaying = true ∧
    (sessionStartedHandler noThrow catalog s e).eng.state = PlayerState.playing ∧
    (sessionStartedHandler noThrow catalog s e).eng.activeTrack = some t ∧
    (sessionStartedHandler noThrow catalog s e).eng.position = e.position := by
  by_cases hpos : 0 < e.position <;>
    simp [sessionStartedHandler, noThrow, hactive, hfind, hplaying, hpos, Engine.exec]

/-- Witness for C1: connecting while track A plays at 37 s pauses, waits,
seeks to 37 and resumes, publishing track A as playing. -/
theorem c1_routing_restart_sequence_witness :
    (sessionStartedHandler noThrow demoCatalog demoStartState demoPlayingEngine).app.nowPlayingSurface =
      (some demoTrackA, true) ∧
    (sessionStartedHandler noThrow demoCatalog demoStartState demoPlayingEngine).eng.state =
      PlayerState.playing ∧
    Act.call (EngineCall.seekTo 37) ∈
      (sessionStartedHandler noThrow demoCatalog demoStartState demoPlayingEngine).trace := by
  have h := c1_routing_restart_sequence demoCatalog demoStartState demoPlayingEngine
    demoTrackA demoTrackA rfl (by decide) rfl
  refine ⟨h.2.1, h.2.2.2.2.1, ?_⟩
  rw [h.1]
  decide

/-- C4: on connect, (a) an active catalog track that is not playing is resumed
unconditionally and published as playing; (b) with no active track and a
non-empty history, the handler behaves exactly like the transport play command
in the connected state - the two state reads followed by the play command
handler's own run. -/
theorem c4_connect_resume_or_history (catalog : List Track) (s : AppState) (e : Engine) :
    (∀ t mediaTrack : Track, e.activeTrack = some t →
      (catalog.find? fun item => item.id == t.id) = some mediaTrack →
      e.state ≠ PlayerState.playing →
      (sessionStartedHandler noThrow catalog s e).trace =
        [.call .getActiveTrack, .call .getPlaybackState, .call .play,
          .publish (.nowPlayingScreen (some mediaTrack) true),
          .publish (.recentlyPlayedScreen s.recentlyPlayed)] ∧
      (sessionStartedHandler noThrow catalog s e).app.isPlaying = true ∧
      (sessionStartedHandler noThrow catalog s e).app.nowPlayingSurface =
        (some mediaTrack, true) ∧
      (sessionStartedHandler noThrow catalog s e).eng.state = PlayerState.playing) ∧
    (∀ first rest, e.activeTrack = Option.none → s.currentTrack = Option.none →
      s.recentlyPlayed = first :: rest →
      sessionStartedHandler noThrow catalog s e =
        ⟨(mediaPlayHandler noThrow { s with isConnected := true } e).app,
         (mediaPlayHandler noThrow { s with isConnected := true } e).eng,
         .call .getActiveTrack :: .call .getPlaybackState ::
           (mediaPlayHandler noThrow { s with isConnected := true } e).trace⟩) := by
  constructor
  · intro t mediaTrack hactive hfind hnp
    simp [sessionStartedHandler, noThrow, hactive, hfind, hnp, Engine.exec]
  · intro first rest hactive hcur hrecent
    simp [sessionStartedHandler, mediaPlayHandler, noThrow, hactive, hcur, hrecent]

/-- Witness for C4: resuming paused track A on connect, and the history branch
agreeing with the play command handler on an empty engine. -/
theorem c4_connect_resume_or_history_witness :
    (sessionStartedHandler noThrow demoCatalog demoStartState demoPausedEngine).app.isPlaying =
      true ∧
    sessionStartedHandler noThrow demoCatalog demoStartState demoEmptyEngine =
      ⟨(mediaPlayHandler noThrow { demoStartState with isConnected := true } demoEmptyEngine).app,
       (mediaPlayHandler noThrow { demoStartState with isConnected := true } demoEmptyEngine).eng,
       .call .getActiveTrack :: .call .getPlaybackState ::
         (mediaPlayHandler noThrow { demoStartState with isConnected := true } demoEmptyEngine).trace⟩ := by
  constructor
  · exact ((c4_connect_resume_or_history demoCatalog demoStartState demoPausedEngine).1
      demoTrackA demoTrackA rfl (by decide) (by decide)).2.1
  · exact (c4_connect_resume_or_history demoCatalog demoStartState demoEmptyEngine).2
      demoTrackB [] rfl rfl rfl

/-- C9 counterexample: when `play` raises, `playTrack` makes no retry - exactly
one `play` attempt, no `setup` re-invocation - and publishes nothing: the app
state (including the surface) is exactly as before, not an error status. -/
theorem c9_counterexample :
    engineCallsOf (playTrack failPlay demoTrackA false demoPausedState demoPausedEngine).trace =
      [.reset, .add demoTrackA, .play] ∧
    EngineCall.setup ∉
      engineCallsOf (playTrack failPlay demoTrackA false demoPausedState demoPausedEngine).trace ∧
    (playTrack failPlay demoTrackA false demoPausedState demoPausedEngine).app =
      demoPausedState := by
  refine ⟨rfl, by decide, rfl⟩

/-- Oracle under which exactly the `reset` call raises. -/
def failReset : EngineCall → Bool := fun c =>
  match c with
  | .reset => true
  | _ => false

/-- A paused demo state whose player-ready flag is unset, so `playTrack` runs
the late `setupPlayer` before its attempt. -/
def demoNotReadyState : AppState :=
  { demoPausedState with isPlayerReady := false }

theorem setupPlayer_no_publish (throws : EngineCall → Bool) :
    ((setupPlayer throws).2.all fun a =>
      match a with
      | Act.publish _ => false
      | _ => true) = true := by
  cases h1 : throws .setup <;> cases h2 : throws .updateOptions <;>
    simp [setupPlayer, h1, h2]

/-- C9 amended: an engine failure inside `playTrack` - `reset`, `add` or `play`
throwing, with or without the player-ready flag - is caught and logged only:
the reconciler state is returned unchanged, the trace is the readiness setup
prelude (present only when the ready flag was unset, and always before the
attempt) followed by the single attempt that stops at the first failing call -
so the failing call is never retried and `setup` is never re-invoked in
response to the failure - and nothing is published, in particular no error
status (the handler never propagates the exception). -/
theorem c9_engine_failure_swallowed (throws : EngineCall → Bool) (track : Track)
    (fromAndroidAuto : Bool) (s : AppState) (e : Engine)
    (hfail : throws .reset = true ∨ throws (.add track) = true ∨ throws .play = true) :
    (playTrack throws track fromAndroidAuto s e).app = s ∧
    (playTrack throws track fromAndroidAuto s e).trace =
      (if s.isPlayerReady then [] else (setupPlayer throws).2) ++
        (if throws .reset then [.call .reset]
         else if throws (.add track) then [.call .reset, .call (.add track)]
         else [.call .reset, .call (.add track), .call .play]) ∧
    ((playTrack throws track fromAndroidAuto s e).trace.all fun a =>
      match a with
      | Act.publish _ => false
      | _ => true) = true := by
  cases hr : throws .reset with
  | true =>
    refine ⟨by simp [playTrack, hr], by simp [playTrack, hr], ?_⟩
    by_cases hready : s.isPlayerReady <;>
      simp [playTrack, hr, hready, List.all_append, setupPlayer_no_publish]
  | false =>
    cases ha : throws (.add track) with
    | true =>
      refine ⟨by simp [playTrack, hr, ha], by simp [playTrack, hr, ha], ?_⟩
      by_cases hready : s.isPlayerReady <;>
        simp [playTrack, hr, ha, hready, List.all_append, setupPlayer_no_publish]
    | false =>
      cases hp : throws .play with
      | true =>
        refine ⟨by simp [playTrack, hr, ha, hp], by simp [playTrack, hr, ha, hp], ?_⟩
        by_cases hready : s.isPlayerReady <;>
          simp [playTrack, hr, ha, hp, hready, List.all_append, setupPlayer_no_publish]
      | false =>
        rcases hfail with h | h | h <;> simp_all

/-- Witness for C9 at two concrete failures: `play` throwing with the player
ready, and `reset` throwing with the player not ready (the setup prelude
precedes the single aborted attempt). -/
theorem c9_engine_failure_swallowed_witness :
    (playTrack failPlay demoTrackA false demoPausedState demoPausedEngine).app =
      demoPausedState ∧
    (playTrack failPlay demoTrackA false demoPausedState demoPausedEngine).trace =
      [.call .reset, .call (.add demoTrackA), .call .play] ∧
    (playTrack failReset demoTrackA false demoNotReadyState demoPausedEngine).app =
      demoNotReadyState ∧
    (playTrack failReset demoTrackA false demoNotReadyState demoPausedEngine).trace =
      [.call .setup, .call .updateOptions, .call .reset] := by
  have h1 := c9_engine_failure_swallowed failPlay demoTrackA false demoPausedState
    demoPausedEngine (Or.inr (Or.inr rfl))
  have h2 := c9_engine_failure_swallowed failReset demoTrackA false demoNotReadyState
    demoPausedEngine (Or.inl rfl)
  refine ⟨h1.1, ?_, h2.1, ?_⟩
  · rw [h1.2.1]
    decide
  · rw [h2.2.1]
    decide

/-- C10: `playTrack` records into the history (memory and persisted copy) only
when `reset`, `add` and `play` all succeeded; if any of them raises, both
copies are exactly as before the call. -/
theorem c10_history_only_after_success (throws : EngineCall → Bool) (track : Track)
    (fromAndroidAuto : Bool) (s : AppState) (e : Engine) :
    ((throws .reset = true ∨ throws (.add track) = true ∨ throws .play = true) →
      (playTrack throws track fromAndroidAuto s e).app.recentlyPlayed = s.recentlyPlayed ∧
      (playTrack throws track fromAndroidAuto s e).app.persisted = s.persisted) ∧
    ((playTrack throws track fromAndroidAuto s e).app.recentlyPlayed ≠ s.recentlyPlayed ∨
        (playTrack throws track fromAndroidAuto s e).app.persisted ≠ s.persisted →
      throws .reset = false ∧ throws (.add track) = false ∧ throws .play = false ∧
      (playTrack throws track fromAndroidAuto s e).app.recentlyPlayed =
        addToRecentlyPlayed track s.recentlyPlayed ∧
      (playTrack throws track fromAndroidAuto s e).app.persisted =
        addToRecentlyPlayed track s.recentlyPlayed) := by
  cases hr : throws .reset with
  | true =>
    refine ⟨fun _ => ⟨by simp [playTrack, hr], by simp [playTrack, hr]⟩, fun hne => ?_⟩
    rcases hne with hne | hne <;> simp [playTrack, hr] at hne
  | false =>
    cases ha : throws (.add track) with
    | true =>
      refine ⟨fun _ => ⟨by simp [playTrack, hr, ha], by simp [playTrack, hr, ha]⟩,
        fun hne => ?_⟩
      rcases hne with hne | hne <;> simp [playTrack, hr, ha] at hne
    | false =>
      cases hp : throws .play with
      | true =>
        refine ⟨fun _ => ⟨by simp [playTrack, hr, ha, hp], by simp [playTrack, hr, ha, hp]⟩,
          fun hne => ?_⟩
        rcases hne with hne | hne <;> simp [playTrack, hr, ha, hp] at hne
      | false =>
        cases hg : throws .getPlaybackState with
        | true =>
          refine ⟨fun hdis => ?_, fun hne => ?_⟩
          · rcases hdis with h | h | h <;> simp_all
          · rcases hne with hne | hne <;> simp [playTrack, hr, ha, hp, hg] at hne
        | false =>
          refine ⟨fun hdis => ?_, fun _ => ?_⟩
          · rcases hdis with h | h | h <;> simp_all
          · exact ⟨rfl, rfl, rfl, by simp [playTrack, hr, ha, hp, hg],
              by simp [playTrack, hr, ha, hp, hg]⟩

/-- Witness for C10 under the fail-on-play oracle: history and persisted copy
are untouched. -/
theorem c10_history_only_after_success_witness :
    (playTrack failPlay demoTrackA false demoPausedState demoPausedEngine).app.recentlyPlayed =
      demoPausedState.recentlyPlayed ∧
    (playTrack failPlay demoTrackA false demoPausedState demoPausedEngine).app.persisted =
      demoPausedState.persisted :=
  (c10_history_only_after_success failPlay demoTrackA false demoPausedState
    demoPausedEngine).1 (Or.inr (Or.inr rfl))

/-- C2 counterexample: with track A playing at 37 s, the actual execution in
which a pause command arrives during the grace wait ends with the engine
playing, while the queued semantics the claim requires (command applied after
the sequence resolves) would end paused; the two runs produce different
engines, so the command's effect was applied mid-sequence, not after. -/
theorem c2_counterexample :
    (restartWithPauseDuringWait demoTrackA demoStartState demoPlayingEngine).eng.state =
      PlayerState.playing ∧
    (restartThenPause demoCatalog demoStartState demoPlayingEngine).eng.state =
      PlayerState.paused ∧
    (restartWithPauseDuringWait demoTrackA demoStartState demoPlayingEngine).eng ≠
      (restartThenPause demoCatalog demoStartState demoPlayingEngine).eng := by
  refine ⟨rfl, rfl, by decide⟩

/-- C2 amended: the restart sequence is not atomic.  (i) The connect handler is
exactly the two restart halves around the awaited grace wait, so a command
arriving during the wait runs between them; (ii) a pause command arriving then
has its engine `pause` issued mid-sequence (between the restart's own pause and
its seek/resume); (iii) the restart's resume then overrides it, leaving the
engine playing; (iv) by contrast, applying the command only after the sequence
resolves would leave the engine paused. -/
theorem c2_pause_interleaves_mid_restart (catalog : List Track) (s : AppState) (e : Engine)
    (t mediaTrack : Track)
    (hactive : e.activeTrack = some t)
    (hfind : (catalog.find? fun item => item.id == t.id) = some mediaTrack)
    (hplaying : e.state = PlayerState.playing) :
    sessionStartedHandler noThrow catalog s e =
      ⟨(restartSecondHalf mediaTrack (restartFirstHalf mediaTrack s e).savedPos
          (restartFirstHalf mediaTrack s e).app (restartFirstHalf mediaTrack s e).eng).app,
        (restartSecondHalf mediaTrack (restartFirstHalf mediaTrack s e).savedPos
          (restartFirstHalf mediaTrack s e).app (restartFirstHalf mediaTrack s e).eng).eng,
        (restartFirstHalf mediaTrack s e).trace ++ [.wait 2000] ++
          (restartSecondHalf mediaTrack (restartFirstHalf mediaTrack s e).savedPos
            (restartFirstHalf mediaTrack s e).app
            (restartFirstHalf mediaTrack s e).eng).trace⟩ ∧
    engineCallsOf (restartWithPauseDuringWait mediaTrack s e).trace =
      [.getActiveTrack, .getPlaybackState, .getProgress, .pause, .pause] ++
        (if 0 < e.position then [.seekTo e.position] else []) ++ [.play] ∧
    (restartWithPauseDuringWait mediaTrack s e).eng.state = PlayerState.playing ∧
    (restartThenPause catalog s e).eng.state = PlayerState.paused := by
  refine ⟨?_, ?_, ?_, ?_⟩
  · by_cases hpos : 0 < e.position <;>
      simp [sessionStartedHandler, restartFirstHalf, restartSecondHalf, noThrow,
        hactive, hfind, hplaying, hpos, Engine.exec]
  · by_cases hpos : 0 < e.position <;>
      simp [restartWithPauseDuringWait, restartFirstHalf, restartSecondHalf,
        mediaPauseHandler, pauseTrack, noThrow, hpos, Engine.exec, engineCallsOf]
  · by_cases hpos : 0 < e.position <;>
      simp [restartWithPauseDuringWait, restartFirstHalf, restartSecondHalf,
        mediaPauseHandler, pauseTrack, noThrow, hpos, Engine.exec, hactive]
  · by_cases hpos : 0 < e.position <;>
      simp [restartThenPause, sessionStartedHandler, mediaPauseHandler, pauseTrack,
        noThrow, hactive, hfind, hplaying, hpos, Engine.exec]

/-- Witness for C2 at the demo state: the interleaved trace has the command's
pause between the restart's pause and its seek/resume, and the engine ends
playing. -/
theorem c2_pause_interleaves_mid_restart_witness :
    engineCallsOf (restartWithPauseDuringWait demoTrackA demoStartState demoPlayingEngine).trace =
      [.getActiveTrack, .getPlaybackState, .getProgress, .pause, .pause, .seekTo 37, .play] ∧
    (restartWithPauseDuringWait demoTrackA demoStartState demoPlayingEngine).eng.state =
      PlayerState.playing := by
  have h := c2_pause_interleaves_mid_restart demoCatalog demoStartState demoPlayingEngine
    demoTrackA demoTrackA rfl (by decide) rfl
  refine ⟨?_, h.2.2.1⟩
  rw [h.2.1]
  decide
